import Mathlib

/-!
# Verification of the art-tag-scanner token codec

Shallow embedding of the token codec in `src/app.js`:
`b64UrlEncode` / `b64UrlDecode` (built on the browser builtins `btoa` /
`atob`, the latter per the WHATWG forgiving-base64 algorithm),
`packDateAmount`, `encodeV1` and `encodeV2`.

Conventions of the embedding:
* Bytes are `Nat` values `< 256`; byte buffers are `List Nat`.
* JS numbers reaching the codec are embedded as `Int` (the codec
  validates `Number.isInteger` on every packed field, so only the
  integer case matters; for `encodeV2` the absent / not-a-number
  variant is embedded as `none : Option Int`).
* `throw new Error(msg)` becomes `Except.error msg`.
* `Math.floor(Math.random()*256)` becomes an explicit `rnd : Nat`
  parameter, making the random source an input as in spec section 9.
-/

/-! ## Whitespace predicates -/

/-- ASCII whitespace as removed by the WHATWG forgiving-base64 algorithm
underlying `atob`: TAB, LF, FF, CR, SPACE. -/
def isAsciiWs (c : Char) : Bool :=
  c.toNat == 9 || c.toNat == 10 || c.toNat == 12 || c.toNat == 13 || c.toNat == 32

/-- The whitespace class stripped by JavaScript `String.prototype.trim`:
ASCII whitespace plus VT, NBSP, the Unicode space separators, the line
and paragraph separators, and the BOM. -/
def isJsWs (c : Char) : Bool :=
  isAsciiWs c || c.toNat == 11 || c.toNat == 160 || c.toNat == 5760 ||
  (8192 ≤ c.toNat && c.toNat ≤ 8202) || c.toNat == 8232 || c.toNat == 8233 ||
  c.toNat == 8239 || c.toNat == 8287 || c.toNat == 12288 || c.toNat == 65279

/-! ## The standard base64 alphabet and the `btoa` / `atob` builtins -/

/-- The standard base64 alphabet indexed 0..63, as used by `btoa` and
`atob` (URL-unsafe: positions 62 and 63 hold `+` and `/`). -/
def b64Alphabet : List Char :=
  ['A', 'B', 'C', 'D', 'E', 'F', 'G', 'H', 'I', 'J', 'K', 'L', 'M',
   'N', 'O', 'P', 'Q', 'R', 'S', 'T', 'U', 'V', 'W', 'X', 'Y', 'Z',
   'a', 'b', 'c', 'd', 'e', 'f', 'g', 'h', 'i', 'j', 'k', 'l', 'm',
   'n', 'o', 'p', 'q', 'r', 's', 't', 'u', 'v', 'w', 'x', 'y', 'z',
   '0', '1', '2', '3', '4', '5', '6', '7', '8', '9', '+', '/']

/-- The alphabet character for a 6-bit value (total via `% 64`; `btoa`
only ever indexes with values below 64). -/
def b64Idx (n : Nat) : Char :=
  b64Alphabet.getD (n % 64) 'A'

/-- Index-lookup of a character in the standard base64 alphabet,
starting from index `i`. -/
def b64ValAux : List Char → Nat → Char → Option Nat
  | [], _, _ => none
  | a :: rest, i, c => if a = c then some i else b64ValAux rest (i + 1) c

/-- The 6-bit value of a standard-base64 alphabet character
(`none` for every character outside the alphabet, including `=`). -/
def b64Val (c : Char) : Option Nat :=
  b64ValAux b64Alphabet 0 c

/-- The browser builtin `btoa` on byte values: standard base64 with `=`
padding, three bytes per four characters, a final group of one byte
giving two characters (plus `==`) and of two bytes giving three (plus
`=`). -/
def btoa : List Nat → List Char
  | x :: y :: z :: rest =>
      b64Idx (x / 4) :: b64Idx (x % 4 * 16 + y / 16) ::
      b64Idx (y % 16 * 4 + z / 64) :: b64Idx (z % 64) :: btoa rest
  | [x, y] => [b64Idx (x / 4), b64Idx (x % 4 * 16 + y / 16), b64Idx (y % 16 * 4), '=']
  | [x] => [b64Idx (x / 4), b64Idx (x % 4 * 16), '=', '=']
  | [] => []

/-- Step 2 of forgiving-base64: when the length is a multiple of four,
remove one or two trailing `=` characters. -/
def stripEq2 (cs : List Char) : List Char :=
  (if cs.reverse.head? = some '=' then
     if cs.reverse.tail.head? = some '=' then cs.reverse.tail.tail
     else cs.reverse.tail
   else cs.reverse).reverse

/-- The bit-collection step of forgiving-base64: four characters give
three bytes; a final group of two characters gives one byte and of three
gives two, excess low bits discarded. A leftover single character (ruled
out earlier by the length check) fails. -/
def decodeQuads : List Char → Option (List Nat)
  | [] => some []
  | [_] => none
  | [c0, c1] =>
      (b64Val c0).bind fun a =>
      (b64Val c1).map fun b => [a * 4 + b / 16]
  | [c0, c1, c2] =>
      (b64Val c0).bind fun a =>
      (b64Val c1).bind fun b =>
      (b64Val c2).map fun c => [a * 4 + b / 16, b % 16 * 16 + c / 4]
  | c0 :: c1 :: c2 :: c3 :: rest =>
      (b64Val c0).bind fun a =>
      (b64Val c1).bind fun b =>
      (b64Val c2).bind fun c =>
      (b64Val c3).bind fun d =>
      (decodeQuads rest).map fun more =>
        (a * 4 + b / 16) :: (b % 16 * 16 + c / 4) :: (c % 4 * 64 + d) :: more

/-- Steps 1 and 2 of the WHATWG forgiving-base64 decode: remove all
ASCII whitespace, then, if the length is a multiple of four, drop up to
two trailing `=`. -/
def atobData (cs : List Char) : List Char :=
  if (cs.filter fun c => !isAsciiWs c).length % 4 = 0 then
    stripEq2 (cs.filter fun c => !isAsciiWs c)
  else cs.filter fun c => !isAsciiWs c

/-- The browser builtin `atob`, per the WHATWG forgiving-base64 decode
algorithm: (1) remove all ASCII whitespace; (2) if the length is a
multiple of 4, drop up to two trailing `=`; (3) fail when the length is
congruent 1 mod 4; (4) fail when any character is outside the standard
alphabet; (5) collect 6-bit groups into bytes. The result is the decoded
byte list (the source immediately reads the binary string back into a
`Uint8Array` byte for byte). -/
def atob (cs : List Char) : Option (List Nat) :=
  if (atobData cs).length % 4 = 1 then none
  else if (atobData cs).any fun c => (b64Val c).isNone then none
  else decodeQuads (atobData cs)

/-! ## `b64UrlEncode` / `b64UrlDecode` (src/app.js lines 9-21) -/

/-- The character substitution of the two global replaces in
`b64UrlEncode`: `+` becomes `-` and `/` becomes `_`. -/
def subEnc (c : Char) : Char :=
  if c = '+' then '-' else if c = '/' then '_' else c

/-- The reverse substitution of the two global replaces in
`b64UrlDecode`: `-` becomes `+` and `_` becomes `/`. -/
def subDec (c : Char) : Char :=
  if c = '-' then '+' else if c = '_' then '/' else c

/-- The base64url alphabet of spec section 4.4: the standard alphabet
with `-` and `_` in place of `+` and `/`. -/
def b64UrlAlphabet : List Char :=
  b64Alphabet.map subEnc

/-- The final replace of `b64UrlEncode`: strip all trailing `=`
characters. -/
def dropTrailingEq (cs : List Char) : List Char :=
  (cs.reverse.dropWhile fun c => c == '=').reverse

/-- JavaScript `String.prototype.trim`: drop the maximal whitespace
prefix and suffix. -/
def jsTrim (cs : List Char) : List Char :=
  ((cs.dropWhile isJsWs).reverse.dropWhile isJsWs).reverse

/-- `while (s.length % 4) s += '='`: append `=` until the length is a
multiple of four. -/
def padEq (cs : List Char) : List Char :=
  cs ++ List.replicate ((4 - cs.length % 4) % 4) '='

/-- `b64UrlEncode` (src/app.js line 9): `btoa` then `+`→`-`, `/`→`_`,
and trailing `=` stripped. -/
def b64UrlEncodeL (bs : List Nat) : List Char :=
  dropTrailingEq ((btoa bs).map subEnc)

/-- `b64UrlEncode` as a `String`-producing function. -/
def b64UrlEncode (bs : List Nat) : String :=
  ⟨b64UrlEncodeL bs⟩

/-- `b64UrlDecode` (src/app.js line 14): trim, reverse the character
substitutions, re-pad to a multiple of four with `=`, then `atob`.
`none` models the `InvalidCharacterError` thrown by `atob`. -/
def b64UrlDecodeL (cs : List Char) : Option (List Nat) :=
  atob (padEq ((jsTrim cs).map subDec))

/-- `b64UrlDecode` on a `String`. -/
def b64UrlDecode (s : String) : Option (List Nat) :=
  b64UrlDecodeL s.data

/-! ## `packDateAmount` (src/app.js lines 24-34) -/

/-- The 48-bit packed value
`(BigInt(yyyy) << 34n) | (BigInt(mm) << 30n) | (BigInt(dd) << 25n) | BigInt(cents)`
(validated fields are non-negative, so `BigInt` arithmetic is `Nat`
arithmetic). -/
def packVal (y m d c : Nat) : Nat :=
  y <<< 34 ||| m <<< 30 ||| d <<< 25 ||| c

/-- The byte-emission loop `for (i=5;i>=0;i--) { out[i] = v & 0xFF; v >>= 8n }`,
unrolled: six bytes, most significant first. -/
def bytesBE6 (v : Nat) : List Nat :=
  [v >>> 40 &&& 255, v >>> 32 &&& 255, v >>> 24 &&& 255,
   v >>> 16 &&& 255, v >>> 8 &&& 255, v &&& 255]

/-- `packDateAmount` (src/app.js line 24): validate the four ranges in
order, throwing the first failing constraint's message, then pack into
six big-endian bytes. `(1<<25)-1 = 33554431`. -/
def packDateAmount (yyyy mm dd cents : Int) : Except String (List Nat) :=
  if ¬ (0 ≤ yyyy ∧ yyyy ≤ 16383) then .error "Year out of range (0..16383)"
  else if ¬ (1 ≤ mm ∧ mm ≤ 12) then .error "Month must be 1..12"
  else if ¬ (1 ≤ dd ∧ dd ≤ 31) then .error "Day must be 1..31"
  else if ¬ (0 ≤ cents ∧ cents ≤ 33554431) then
    .error "Amount too large (max 33,554,431 cents)"
  else .ok (bytesBE6 (packVal yyyy.toNat mm.toNat dd.toNat cents.toNat))

/-! ## `encodeV1` / `encodeV2` (src/app.js lines 37-48) -/

/-- `encodeV1` (src/app.js line 37): pack, then base64url-encode the six
bytes. -/
def encodeV1 (yyyy mm dd cents : Int) : Except String String :=
  (packDateAmount yyyy mm dd cents).map b64UrlEncode

/-- JavaScript `ToInt32` (the `|0` coercion): wrap into the signed
32-bit range. -/
def toInt32 (v : Int) : Int :=
  let w := v % 4294967296
  if w < 2147483648 then w else w - 4294967296

/-- The variant resolution of `encodeV2`:
`(variant == null || isNaN(variant)) ? (Math.floor(Math.random()*256) & 0xFF)
: Math.max(0, Math.min(255, variant|0))`, with the random draw supplied
as `rnd`. -/
def resolveVariant (variant : Option Int) (rnd : Nat) : Nat :=
  match variant with
  | none => rnd &&& 255
  | some x => (max 0 (min 255 (toInt32 x))).toNat

/-- `encodeV2` (src/app.js line 41): pack, resolve the variant, prepend
the variant byte to the six payload bytes, base64url-encode the seven
bytes and return both the token and the resolved variant. -/
def encodeV2 (yyyy mm dd cents : Int) (variant : Option Int) (rnd : Nat) :
    Except String (String × Nat) :=
  (packDateAmount yyyy mm dd cents).map fun b6 =>
    let v := resolveVariant variant rnd
    (b64UrlEncode (v :: b6), v)

/-! ## Token decoding, modelled from the spec

The repository ships no token decoder (spec section 9: "the source never
implements token decoding"); sections 4.2 and 4.3 specify the symmetric
operation, which the following definitions model. -/

/-- Modelled from the spec: the missing unpacking step of sections
4.2/4.3 — "unpack the 48-bit integer by reversing the shifts to recover
(year, month, day, amount)". The six bytes are read big-endian and each
field is the corresponding bit range (right-shift written as division,
mask as remainder): year the top 14 bits, month the next 4, day the
next 5, amount the low 25. -/
def unpackDateAmount (b0 b1 b2 b3 b4 b5 : Nat) : Nat × Nat × Nat × Nat :=
  let v := b0 * 2 ^ 40 + b1 * 2 ^ 32 + b2 * 2 ^ 24 + b3 * 2 ^ 16 + b4 * 2 ^ 8 + b5
  (v / 2 ^ 34, v / 2 ^ 30 % 16, v / 2 ^ 25 % 32, v % 2 ^ 25)

/-- Modelled from the spec: the missing V1 decoder of section 4.2 —
base64url-decode, fail with `MalformedToken` unless the result is
exactly six bytes, then unpack. -/
def decodeV1 (s : String) : Except String (Nat × Nat × Nat × Nat) :=
  match b64UrlDecode s with
  | some [b0, b1, b2, b3, b4, b5] => .ok (unpackDateAmount b0 b1 b2 b3 b4 b5)
  | _ => .error "MalformedToken"

/-- Modelled from the spec: the missing V2 decoder of section 4.3 —
base64url-decode, fail with `MalformedToken` unless the result is
exactly seven bytes, split off the variant byte and unpack the rest. -/
def decodeV2 (s : String) : Except String (Nat × Nat × Nat × Nat × Nat) :=
  match b64UrlDecode s with
  | some [vb, b0, b1, b2, b3, b4, b5] => .ok (vb, unpackDateAmount b0 b1 b2 b3 b4 b5)
  | _ => .error "MalformedToken"

/-! ## Character-table facts -/

/-- Transfer a decidable fact about the 64 alphabet characters to
`b64Idx` at any index. -/
theorem b64Idx_fact (p : Char → Bool)
    (h : ∀ r, r < 64 → p (b64Alphabet.getD r 'A') = true) (n : Nat) :
    p (b64Idx n) = true :=
  h (n % 64) (Nat.mod_lt n (by norm_num))

/-- Alphabet characters are not JS whitespace. -/
theorem isJsWs_b64Idx (n : Nat) : isJsWs (b64Idx n) = false := by
  have h := b64Idx_fact (fun c => !isJsWs c) (by decide) n
  simpa using h

/-- Alphabet characters are not ASCII whitespace. -/
theorem isAsciiWs_b64Idx (n : Nat) : isAsciiWs (b64Idx n) = false := by
  have h := b64Idx_fact (fun c => !isAsciiWs c) (by decide) n
  simpa using h

/-- Alphabet characters are never the padding character. -/
theorem b64Idx_ne_pad (n : Nat) : ¬ (b64Idx n = '=') := by
  have h := b64Idx_fact (fun c => !(c == '=')) (by decide) n
  simpa using h

/-- The URL-safe substitution sends no alphabet character to whitespace. -/
theorem isJsWs_subEnc_b64Idx (n : Nat) : isJsWs (subEnc (b64Idx n)) = false := by
  have h := b64Idx_fact (fun c => !isJsWs (subEnc c)) (by decide) n
  simpa using h

/-- The URL-safe substitution sends no alphabet character to padding. -/
theorem subEnc_b64Idx_ne_pad (n : Nat) : ¬ (subEnc (b64Idx n) = '=') := by
  have h := b64Idx_fact (fun c => !(subEnc c == '=')) (by decide) n
  simpa using h

/-- The decode-side substitution undoes the encode-side substitution on
alphabet characters. -/
theorem subDec_subEnc_b64Idx (n : Nat) : subDec (subEnc (b64Idx n)) = b64Idx n := by
  have h := b64Idx_fact (fun c => subDec (subEnc c) == c) (by decide) n
  simpa using h

/-- Decoding the alphabet character of a 6-bit value recovers the value. -/
theorem b64Val_b64Idx (n : Nat) : b64Val (b64Idx n) = some (n % 64) := by
  have h : ∀ r, r < 64 → b64Val (b64Alphabet.getD r 'A') = some r := by decide
  exact h (n % 64) (Nat.mod_lt n (by norm_num))

/-- The padding character is outside the alphabet. -/
theorem b64Val_pad : b64Val '=' = none := by decide

/-! ## Packing arithmetic -/

/-- Disjoint bitwise or is addition: the low bits do not overlap the
shifted high part. -/
theorem lor_mul_pow_add {b k : Nat} (a : Nat) (h : b < 2 ^ k) :
    a * 2 ^ k ||| b = a * 2 ^ k + b := by
  rw [Nat.mul_comm a (2 ^ k)]
  exact (Nat.mul_add_lt_is_or h a).symm

/-- In range, the shift-and-or packing of `packDateAmount` is plain
positional arithmetic in the widths 14, 4, 5, 25. -/
theorem packVal_eq (y m d c : Nat) (hm : m < 16) (hd : d < 32) (hc : c < 2 ^ 25) :
    packVal y m d c = y * 2 ^ 34 + m * 2 ^ 30 + d * 2 ^ 25 + c := by
  unfold packVal
  rw [Nat.lor_assoc, Nat.lor_assoc, Nat.shiftLeft_eq, Nat.shiftLeft_eq,
    Nat.shiftLeft_eq, lor_mul_pow_add d hc,
    lor_mul_pow_add m (show d * 2 ^ 25 + c < 2 ^ 30 by omega),
    lor_mul_pow_add y (show m * 2 ^ 30 + (d * 2 ^ 25 + c) < 2 ^ 34 by omega)]
  ring

/-- Masking a byte with `0xFF` is remainder by 256. -/
theorem and255 (x : Nat) : x &&& 255 = x % 256 := by
  have h := Nat.and_pow_two_sub_one_eq_mod x 8
  norm_num at h
  exact h

/-- The byte-emission loop in arithmetic form: the six base-256 digits
of the packed value, most significant first. -/
theorem bytesBE6_eq (v : Nat) :
    bytesBE6 v = [v / 2 ^ 40 % 256, v / 2 ^ 32 % 256, v / 2 ^ 24 % 256,
      v / 2 ^ 16 % 256, v / 2 ^ 8 % 256, v % 256] := by
  simp [bytesBE6, Nat.shiftRight_eq_div_pow, and255]

/-- On in-range natural inputs, `packDateAmount` succeeds with the six
big-endian bytes of the positionally packed 48-bit value. -/
theorem packDateAmount_ok (y m d a : Nat) (hy : y ≤ 16383) (hm1 : 1 ≤ m)
    (hm2 : m ≤ 12) (hd1 : 1 ≤ d) (hd2 : d ≤ 31) (ha : a ≤ 33554431) :
    packDateAmount y m d a =
      .ok (bytesBE6 (y * 2 ^ 34 + m * 2 ^ 30 + d * 2 ^ 25 + a)) := by
  have h1 : ¬¬ (0 ≤ (y : Int) ∧ (y : Int) ≤ 16383) := by omega
  have h2 : ¬¬ (1 ≤ (m : Int) ∧ (m : Int) ≤ 12) := by omega
  have h3 : ¬¬ (1 ≤ (d : Int) ∧ (d : Int) ≤ 31) := by omega
  have h4 : ¬¬ (0 ≤ (a : Int) ∧ (a : Int) ≤ 33554431) := by omega
  unfold packDateAmount
  rw [if_neg h1, if_neg h2, if_neg h3, if_neg h4]
  rw [Int.toNat_natCast, Int.toNat_natCast, Int.toNat_natCast, Int.toNat_natCast]
  rw [packVal_eq y m d a (by omega) (by omega) (by omega)]

/-! ## Base64url round-trip -/

/-- The URL-safe substitution sends no alphabet character to padding
(boolean form). -/
theorem subEnc_b64Idx_beq_pad (n : Nat) : (subEnc (b64Idx n) == '=') = false := by
  have h := b64Idx_fact (fun c => !(subEnc c == '=')) (by decide) n
  simpa using h

/-- The URL-safe substitution fixes the padding character. -/
theorem subEnc_pad : subEnc '=' = '=' := rfl

/-- The padding character is not ASCII whitespace. -/
theorem isAsciiWs_pad : isAsciiWs '=' = false := rfl

set_option maxHeartbeats 1000000 in
/-- Base64url round-trip on a six-byte buffer: decoding the encoding of
any six bytes recovers them (two full base64 groups, no padding
involved). -/
theorem b64_roundtrip6 (b0 b1 b2 b3 b4 b5 : Nat)
    (h0 : b0 < 256) (h1 : b1 < 256) (h2 : b2 < 256) (h3 : b3 < 256)
    (h4 : b4 < 256) (h5 : b5 < 256) :
    b64UrlDecodeL (b64UrlEncodeL [b0, b1, b2, b3, b4, b5]) =
      some [b0, b1, b2, b3, b4, b5] := by
  have henc : b64UrlEncodeL [b0, b1, b2, b3, b4, b5] =
      [subEnc (b64Idx (b0 / 4)), subEnc (b64Idx (b0 % 4 * 16 + b1 / 16)),
       subEnc (b64Idx (b1 % 16 * 4 + b2 / 64)), subEnc (b64Idx (b2 % 64)),
       subEnc (b64Idx (b3 / 4)), subEnc (b64Idx (b3 % 4 * 16 + b4 / 16)),
       subEnc (b64Idx (b4 % 16 * 4 + b5 / 64)), subEnc (b64Idx (b5 % 64))] := by
    simp [b64UrlEncodeL, btoa, dropTrailingEq, subEnc_b64Idx_beq_pad]
  rw [b64UrlDecodeL, henc]
  simp [jsTrim, isJsWs_subEnc_b64Idx, subDec_subEnc_b64Idx, padEq, atob,
    atobData, isAsciiWs_b64Idx, stripEq2, b64Idx_ne_pad, b64Val_b64Idx, decodeQuads]
  omega

set_option maxHeartbeats 1000000 in
/-- Base64url round-trip on a seven-byte buffer: the encoder emits two
full groups plus a two-character tail (its `==` padding stripped), the
decoder re-pads and recovers all seven bytes. -/
theorem b64_roundtrip7 (v b0 b1 b2 b3 b4 b5 : Nat)
    (hv : v < 256) (h0 : b0 < 256) (h1 : b1 < 256) (h2 : b2 < 256)
    (h3 : b3 < 256) (h4 : b4 < 256) (h5 : b5 < 256) :
    b64UrlDecodeL (b64UrlEncodeL [v, b0, b1, b2, b3, b4, b5]) =
      some [v, b0, b1, b2, b3, b4, b5] := by
  have henc : b64UrlEncodeL [v, b0, b1, b2, b3, b4, b5] =
      [subEnc (b64Idx (v / 4)), subEnc (b64Idx (v % 4 * 16 + b0 / 16)),
       subEnc (b64Idx (b0 % 16 * 4 + b1 / 64)), subEnc (b64Idx (b1 % 64)),
       subEnc (b64Idx (b2 / 4)), subEnc (b64Idx (b2 % 4 * 16 + b3 / 16)),
       subEnc (b64Idx (b3 % 16 * 4 + b4 / 64)), subEnc (b64Idx (b4 % 64)),
       subEnc (b64Idx (b5 / 4)), subEnc (b64Idx (b5 % 4 * 16))] := by
    simp [b64UrlEncodeL, btoa, dropTrailingEq, subEnc_b64Idx_beq_pad, subEnc_pad]
  rw [b64UrlDecodeL, henc]
  simp [jsTrim, isJsWs_subEnc_b64Idx, subDec_subEnc_b64Idx, padEq, atob,
    atobData, isAsciiWs_b64Idx, isAsciiWs_pad, stripEq2, b64Idx_ne_pad,
    b64Val_b64Idx, decodeQuads, List.replicate]
  omega

/-- Decoding an encoded buffer at `String` level is the list-level
composition. -/
theorem b64UrlDecode_encode (bs : List Nat) :
    b64UrlDecode (b64UrlEncode bs) = b64UrlDecodeL (b64UrlEncodeL bs) := rfl

/-! ## Token round-trip -/

/-- Unpacking the six base-256 digits of an in-range packed value
recovers the four fields. -/
theorem unpack_digits (y m d a : Nat) (hy : y ≤ 16383) (hm1 : 1 ≤ m) (hm2 : m ≤ 12)
    (hd1 : 1 ≤ d) (hd2 : d ≤ 31) (ha : a ≤ 33554431) :
    unpackDateAmount
      ((y * 2 ^ 34 + m * 2 ^ 30 + d * 2 ^ 25 + a) / 2 ^ 40 % 256)
      ((y * 2 ^ 34 + m * 2 ^ 30 + d * 2 ^ 25 + a) / 2 ^ 32 % 256)
      ((y * 2 ^ 34 + m * 2 ^ 30 + d * 2 ^ 25 + a) / 2 ^ 24 % 256)
      ((y * 2 ^ 34 + m * 2 ^ 30 + d * 2 ^ 25 + a) / 2 ^ 16 % 256)
      ((y * 2 ^ 34 + m * 2 ^ 30 + d * 2 ^ 25 + a) / 2 ^ 8 % 256)
      ((y * 2 ^ 34 + m * 2 ^ 30 + d * 2 ^ 25 + a) % 256) = (y, m, d, a) := by
  simp only [unpackDateAmount, Prod.mk.injEq]
  refine ⟨by omega, by omega, by omega, by omega⟩

/-- V1 token round-trip, composed form: encode then decode is the
identity on every in-range input. -/
theorem decodeV1_encodeV1 (y m d a : Nat) (hy : y ≤ 16383) (hm1 : 1 ≤ m) (hm2 : m ≤ 12)
    (hd1 : 1 ≤ d) (hd2 : d ≤ 31) (ha : a ≤ 33554431) :
    (encodeV1 y m d a).bind decodeV1 = .ok (y, m, d, a) := by
  rw [encodeV1, packDateAmount_ok y m d a hy hm1 hm2 hd1 hd2 ha, bytesBE6_eq]
  simp only [Except.map, Except.bind]
  rw [decodeV1, b64UrlDecode_encode]
  rw [b64_roundtrip6 _ _ _ _ _ _ (Nat.mod_lt _ (by norm_num)) (Nat.mod_lt _ (by norm_num))
    (Nat.mod_lt _ (by norm_num)) (Nat.mod_lt _ (by norm_num)) (Nat.mod_lt _ (by norm_num))
    (Nat.mod_lt _ (by norm_num))]
  exact congrArg Except.ok (unpack_digits y m d a hy hm1 hm2 hd1 hd2 ha)

/-- The resolved variant is always a byte, whichever branch resolves
it. -/
theorem resolveVariant_lt (var : Option Int) (rnd : Nat) :
    resolveVariant var rnd < 256 := by
  cases var with
  | none =>
      have h : rnd &&& 255 ≤ 255 := Nat.and_le_right
      simpa [resolveVariant] using Nat.lt_succ_of_le h
  | some x =>
      simp only [resolveVariant, toInt32]
      omega

/-- V2 token round-trip, composed form: encode then decode recovers the
resolved variant byte and the four fields on every in-range input. -/
theorem decodeV2_encodeV2 (y m d a : Nat) (var : Option Int) (rnd : Nat)
    (hy : y ≤ 16383) (hm1 : 1 ≤ m) (hm2 : m ≤ 12)
    (hd1 : 1 ≤ d) (hd2 : d ≤ 31) (ha : a ≤ 33554431) :
    (encodeV2 y m d a var rnd).bind (fun p => decodeV2 p.1) =
      .ok (resolveVariant var rnd, y, m, d, a) := by
  rw [encodeV2, packDateAmount_ok y m d a hy hm1 hm2 hd1 hd2 ha, bytesBE6_eq]
  simp only [Except.map, Except.bind]
  rw [decodeV2, b64UrlDecode_encode]
  rw [b64_roundtrip7 _ _ _ _ _ _ _ (resolveVariant_lt var rnd)
    (Nat.mod_lt _ (by norm_num)) (Nat.mod_lt _ (by norm_num)) (Nat.mod_lt _ (by norm_num))
    (Nat.mod_lt _ (by norm_num)) (Nat.mod_lt _ (by norm_num)) (Nat.mod_lt _ (by norm_num))]
  exact congrArg Except.ok
    (congrArg (Prod.mk (resolveVariant var rnd)) (unpack_digits y m d a hy hm1 hm2 hd1 hd2 ha))

/-! ## Encoded token lengths -/

/-- Encoding six bytes always yields eight characters (two full groups,
nothing stripped). -/
theorem b64UrlEncodeL_len6 (b0 b1 b2 b3 b4 b5 : Nat) :
    (b64UrlEncodeL [b0, b1, b2, b3, b4, b5]).length = 8 := by
  simp [b64UrlEncodeL, btoa, dropTrailingEq, subEnc_b64Idx_beq_pad]

/-- Encoding seven bytes always yields ten characters (the two `=` of
the final group are stripped). -/
theorem b64UrlEncodeL_len7 (v b0 b1 b2 b3 b4 b5 : Nat) :
    (b64UrlEncodeL [v, b0, b1, b2, b3, b4, b5]).length = 10 := by
  simp [b64UrlEncodeL, btoa, dropTrailingEq, subEnc_b64Idx_beq_pad, subEnc_pad]

/-! ## Claim theorems -/

/-- C1: for every valid input (year in [0,16383], month in [1,12], day
in [1,31], amount in [0,33554431]) decoding the token produced by
`encodeV1` recovers exactly (year, month, day, amount); likewise the
10-character V2 token with an explicit variant in [0,255] decodes to the
same variant byte and fields. -/
theorem claim_C1_roundtrip (y m d a v rnd : Nat)
    (hy : y ≤ 16383) (hm1 : 1 ≤ m) (hm2 : m ≤ 12) (hd1 : 1 ≤ d) (hd2 : d ≤ 31)
    (ha : a ≤ 33554431) (hv : v ≤ 255) :
    (encodeV1 y m d a).bind decodeV1 = .ok (y, m, d, a) ∧
    (encodeV2 y m d a (some v) rnd).bind (fun p => decodeV2 p.1) =
      .ok (v, y, m, d, a) := by
  constructor
  · exact decodeV1_encodeV1 y m d a hy hm1 hm2 hd1 hd2 ha
  · have hres : resolveVariant (some (v : Int)) rnd = v := by
      simp only [resolveVariant, toInt32]
      omega
    rw [decodeV2_encodeV2 y m d a (some v) rnd hy hm1 hm2 hd1 hd2 ha, hres]

/-- Witness for C1 at (2024, 1, 15, 1050) with variant 7. -/
theorem claim_C1_roundtrip_witness :
    (1 : Nat) ≤ 12 ∧
    (encodeV1 2024 1 15 1050).bind decodeV1 = .ok (2024, 1, 15, 1050) ∧
    (encodeV2 2024 1 15 1050 (some 7) 3).bind (fun p => decodeV2 p.1) =
      .ok (7, 2024, 1, 15, 1050) :=
  ⟨by norm_num,
   (claim_C1_roundtrip 2024 1 15 1050 7 3 (by norm_num) (by norm_num) (by norm_num)
     (by norm_num) (by norm_num) (by norm_num) (by norm_num)).1,
   (claim_C1_roundtrip 2024 1 15 1050 7 3 (by norm_num) (by norm_num) (by norm_num)
     (by norm_num) (by norm_num) (by norm_num) (by norm_num)).2⟩

/-- C2: on every valid input `packDateAmount` emits exactly the six
big-endian base-256 digits of the 48-bit value packed with widths
14, 4, 5, 25; at (2024, 3, 7, 1999) the shift-and-or packed value equals
the positional sum, and `encodeV1 2024 3 7 1999` decodes back to
(2024, 3, 7, 1999). -/
theorem claim_C2_packing (y m d a : Nat)
    (hy : y ≤ 16383) (hm1 : 1 ≤ m) (hm2 : m ≤ 12) (hd1 : 1 ≤ d) (hd2 : d ≤ 31)
    (ha : a ≤ 33554431) :
    packDateAmount y m d a = .ok
      [(y * 2 ^ 34 + m * 2 ^ 30 + d * 2 ^ 25 + a) / 2 ^ 40 % 256,
       (y * 2 ^ 34 + m * 2 ^ 30 + d * 2 ^ 25 + a) / 2 ^ 32 % 256,
       (y * 2 ^ 34 + m * 2 ^ 30 + d * 2 ^ 25 + a) / 2 ^ 24 % 256,
       (y * 2 ^ 34 + m * 2 ^ 30 + d * 2 ^ 25 + a) / 2 ^ 16 % 256,
       (y * 2 ^ 34 + m * 2 ^ 30 + d * 2 ^ 25 + a) / 2 ^ 8 % 256,
       (y * 2 ^ 34 + m * 2 ^ 30 + d * 2 ^ 25 + a) % 256] ∧
    y * 2 ^ 34 + m * 2 ^ 30 + d * 2 ^ 25 + a < 2 ^ 48 ∧
    (packDateAmount y m d a).map List.length = .ok 6 ∧
    packVal 2024 3 7 1999 = 2024 * 2 ^ 34 + 3 * 2 ^ 30 + 7 * 2 ^ 25 + 1999 ∧
    (encodeV1 2024 3 7 1999).bind decodeV1 = .ok (2024, 3, 7, 1999) := by
  have hp := packDateAmount_ok y m d a hy hm1 hm2 hd1 hd2 ha
  refine ⟨?_, by omega, ?_, by decide, ?_⟩
  · rw [hp, bytesBE6_eq]
  · rw [hp]
    simp [bytesBE6, Except.map]
  · exact decodeV1_encodeV1 2024 3 7 1999 (by norm_num) (by norm_num) (by norm_num)
      (by norm_num) (by norm_num) (by norm_num)

/-- Witness for C2 at (2024, 3, 7, 1999). -/
theorem claim_C2_packing_witness :
    (1 : Nat) ≤ 12 ∧
    packDateAmount 2024 3 7 1999 = .ok
      [(2024 * 2 ^ 34 + 3 * 2 ^ 30 + 7 * 2 ^ 25 + 1999) / 2 ^ 40 % 256,
       (2024 * 2 ^ 34 + 3 * 2 ^ 30 + 7 * 2 ^ 25 + 1999) / 2 ^ 32 % 256,
       (2024 * 2 ^ 34 + 3 * 2 ^ 30 + 7 * 2 ^ 25 + 1999) / 2 ^ 24 % 256,
       (2024 * 2 ^ 34 + 3 * 2 ^ 30 + 7 * 2 ^ 25 + 1999) / 2 ^ 16 % 256,
       (2024 * 2 ^ 34 + 3 * 2 ^ 30 + 7 * 2 ^ 25 + 1999) / 2 ^ 8 % 256,
       (2024 * 2 ^ 34 + 3 * 2 ^ 30 + 7 * 2 ^ 25 + 1999) % 256] :=
  ⟨by norm_num,
   (claim_C2_packing 2024 3 7 1999 (by norm_num) (by norm_num) (by norm_num)
     (by norm_num) (by norm_num) (by norm_num)).1⟩

/-- C3: `packDateAmount` succeeds exactly when year is in [0,16383],
month in [1,12], day in [1,31] and amount in [0,33554431]; the stated
boundary inputs are accepted or rejected accordingly, and no
day-against-month cross-validation happens (February 30 is accepted). -/
theorem claim_C3_validation (y m d a : Int) :
    ((∃ bs, packDateAmount y m d a = .ok bs) ↔
      (0 ≤ y ∧ y ≤ 16383 ∧ 1 ≤ m ∧ m ≤ 12 ∧ 1 ≤ d ∧ d ≤ 31 ∧
       0 ≤ a ∧ a ≤ 33554431)) ∧
    (∃ bs, packDateAmount 16383 1 1 33554431 = .ok bs) ∧
    packDateAmount 16384 1 1 0 = .error "Year out of range (0..16383)" ∧
    packDateAmount 2024 1 1 33554432 = .error "Amount too large (max 33,554,431 cents)" ∧
    packDateAmount 2024 1 0 0 = .error "Day must be 1..31" ∧
    packDateAmount 2024 1 32 0 = .error "Day must be 1..31" ∧
    packDateAmount 2024 0 1 0 = .error "Month must be 1..12" ∧
    packDateAmount 2024 13 1 0 = .error "Month must be 1..12" ∧
    (∃ bs, packDateAmount 2024 2 30 0 = .ok bs) := by
  refine ⟨?_, ⟨_, rfl⟩, rfl, rfl, rfl, rfl, rfl, rfl, ⟨_, rfl⟩⟩
  unfold packDateAmount
  split_ifs with h1 h2 h3 h4 <;> simp <;> omega

/-- C4: on every valid input the V1 token has exactly 8 characters and
the V2 token exactly 10, whatever the variant argument and random
draw. -/
theorem claim_C4_length (y m d a : Nat) (var : Option Int) (rnd : Nat)
    (hy : y ≤ 16383) (hm1 : 1 ≤ m) (hm2 : m ≤ 12) (hd1 : 1 ≤ d) (hd2 : d ≤ 31)
    (ha : a ≤ 33554431) :
    (encodeV1 y m d a).map String.length = .ok 8 ∧
    (encodeV2 y m d a var rnd).map (fun p => p.1.length) = .ok 10 := by
  constructor
  · rw [encodeV1, packDateAmount_ok y m d a hy hm1 hm2 hd1 hd2 ha]
    simp only [Except.map, bytesBE6]
    exact congrArg Except.ok (b64UrlEncodeL_len6 _ _ _ _ _ _)
  · rw [encodeV2, packDateAmount_ok y m d a hy hm1 hm2 hd1 hd2 ha]
    simp only [Except.map, bytesBE6]
    exact congrArg Except.ok (b64UrlEncodeL_len7 _ _ _ _ _ _ _)

/-- Witness for C4 at (2024, 1, 15, 1050) with an unspecified variant. -/
theorem claim_C4_length_witness :
    (1 : Nat) ≤ 12 ∧
    (encodeV1 2024 1 15 1050).map String.length = .ok 8 ∧
    (encodeV2 2024 1 15 1050 none 77).map (fun p => p.1.length) = .ok 10 :=
  ⟨by norm_num,
   (claim_C4_length 2024 1 15 1050 none 77 (by norm_num) (by norm_num) (by norm_num)
     (by norm_num) (by norm_num) (by norm_num)).1,
   (claim_C4_length 2024 1 15 1050 none 77 (by norm_num) (by norm_num) (by norm_num)
     (by norm_num) (by norm_num) (by norm_num)).2⟩

/-- C5 counterexample: variant 2147483648 (= 2^31) is out of range and
the nearest bound is 255, yet `encodeV2` resolves it to 0 — the `|0`
coercion wraps into signed 32-bit before the clamp. -/
theorem claim_C5_variant_counterexample :
    (encodeV2 2024 1 15 1050 (some 2147483648) 0).map Prod.snd = .ok 0 ∧
    (2147483648 : Int) > 255 ∧ (0 : Nat) ≠ 255 :=
  ⟨rfl, by norm_num, by norm_num⟩

/-- C5 (amended): on valid inputs `encodeV2` returns the resolved
variant, which is always a byte; an absent variant resolves to the
masked random draw; a supplied integer variant is first wrapped into
signed 32-bit by `|0` and then clamped into [0,255] — so every variant
already in [-2^31, 2^31-1] clamps to the nearest bound — and the
resolved variant is the byte prepended to the payload, as decoding the
returned token shows. -/
theorem claim_C5_variant (y m d a : Nat) (var : Option Int) (rnd : Nat) (v : Int)
    (hy : y ≤ 16383) (hm1 : 1 ≤ m) (hm2 : m ≤ 12) (hd1 : 1 ≤ d) (hd2 : d ≤ 31)
    (ha : a ≤ 33554431) :
    (encodeV2 y m d a var rnd).map Prod.snd = .ok (resolveVariant var rnd) ∧
    resolveVariant var rnd ≤ 255 ∧
    resolveVariant none rnd = rnd &&& 255 ∧
    (-2147483648 ≤ v → v ≤ 2147483647 →
      resolveVariant (some v) rnd = (min 255 (max 0 v)).toNat) ∧
    (encodeV2 y m d a var rnd).bind (fun p => decodeV2 p.1) =
      .ok (resolveVariant var rnd, y, m, d, a) := by
  refine ⟨?_, Nat.lt_succ_iff.mp (resolveVariant_lt var rnd), rfl, ?_, ?_⟩
  · rw [encodeV2, packDateAmount_ok y m d a hy hm1 hm2 hd1 hd2 ha]
    simp [Except.map]
  · intro h1 h2
    simp only [resolveVariant, toInt32]
    omega
  · exact decodeV2_encodeV2 y m d a var rnd hy hm1 hm2 hd1 hd2 ha

/-- Witness for C5 at (2024, 1, 15, 1050) with variant 999. -/
theorem claim_C5_variant_witness :
    (999 : Int) ≤ 2147483647 ∧
    (encodeV2 2024 1 15 1050 (some 999) 5).map Prod.snd =
      .ok (resolveVariant (some 999) 5) ∧
    resolveVariant (some 999) 5 = (min 255 (max 0 (999 : Int))).toNat :=
  ⟨by norm_num,
   (claim_C5_variant 2024 1 15 1050 (some 999) 5 999 (by norm_num) (by norm_num)
     (by norm_num) (by norm_num) (by norm_num) (by norm_num)).1,
   ((claim_C5_variant 2024 1 15 1050 (some 999) 5 999 (by norm_num) (by norm_num)
     (by norm_num) (by norm_num) (by norm_num) (by norm_num)).2.2.2.1 (by norm_num)
     (by norm_num))⟩

/-- C7: validation is ordered and short-circuiting — the error reported
is that of the first violated constraint in the order year, month, day,
amount, and the four messages are pairwise distinct. -/
theorem claim_C7_order (y m d a : Int) :
    (¬ (0 ≤ y ∧ y ≤ 16383) →
      packDateAmount y m d a = .error "Year out of range (0..16383)") ∧
    ((0 ≤ y ∧ y ≤ 16383) → ¬ (1 ≤ m ∧ m ≤ 12) →
      packDateAmount y m d a = .error "Month must be 1..12") ∧
    ((0 ≤ y ∧ y ≤ 16383) → (1 ≤ m ∧ m ≤ 12) → ¬ (1 ≤ d ∧ d ≤ 31) →
      packDateAmount y m d a = .error "Day must be 1..31") ∧
    ((0 ≤ y ∧ y ≤ 16383) → (1 ≤ m ∧ m ≤ 12) → (1 ≤ d ∧ d ≤ 31) →
      ¬ (0 ≤ a ∧ a ≤ 33554431) →
      packDateAmount y m d a = .error "Amount too large (max 33,554,431 cents)") ∧
    ("Year out of range (0..16383)" ≠ "Month must be 1..12" ∧
     "Year out of range (0..16383)" ≠ "Day must be 1..31" ∧
     "Year out of range (0..16383)" ≠ "Amount too large (max 33,554,431 cents)" ∧
     "Month must be 1..12" ≠ "Day must be 1..31" ∧
     "Month must be 1..12" ≠ "Amount too large (max 33,554,431 cents)" ∧
     "Day must be 1..31" ≠ "Amount too large (max 33,554,431 cents)") := by
  refine ⟨?_, ?_, ?_, ?_, by decide⟩
  · intro h1
    rw [packDateAmount, if_pos h1]
  · intro h1 h2
    rw [packDateAmount, if_neg (not_not_intro h1), if_pos h2]
  · intro h1 h2 h3
    rw [packDateAmount, if_neg (not_not_intro h1), if_neg (not_not_intro h2),
      if_pos h3]
  · intro h1 h2 h3 h4
    rw [packDateAmount, if_neg (not_not_intro h1), if_neg (not_not_intro h2),
      if_neg (not_not_intro h3), if_pos h4]

/-- Witness for C7 at inputs violating several constraints at once: the
first violated constraint in order determines the message. -/
theorem claim_C7_order_witness :
    packDateAmount 16384 0 32 (-1) = .error "Year out of range (0..16383)" ∧
    packDateAmount 2024 0 32 (-1) = .error "Month must be 1..12" ∧
    packDateAmount 2024 12 32 (-1) = .error "Day must be 1..31" ∧
    packDateAmount 2024 12 31 (-1) = .error "Amount too large (max 33,554,431 cents)" :=
  ⟨(claim_C7_order 16384 0 32 (-1)).1 (by norm_num),
   (claim_C7_order 2024 0 32 (-1)).2.1 (by norm_num) (by norm_num),
   (claim_C7_order 2024 12 32 (-1)).2.2.1 (by norm_num) (by norm_num) (by norm_num),
   (claim_C7_order 2024 12 31 (-1)).2.2.2.1 (by norm_num) (by norm_num) (by norm_num)
     (by norm_num)⟩

/-- C8: `encodeV1` is deterministic — the embedding is a pure function
of its four arguments alone (unlike `encodeV2` it takes no random
source), so identical inputs always give identical output; in
particular (2024, 1, 15, 1050) yields the literal token on every
call. -/
theorem claim_C8_deterministic (y m d a : Int) :
    encodeV1 y m d a = encodeV1 y m d a ∧
    encodeV1 2024 1 15 1050 = .ok "H6BeAAQa" :=
  ⟨rfl, rfl⟩

/-- C9: `packDateAmount` (and hence `encodeV1`) is injective on the
valid domain — equal payloads or equal tokens force equal field
tuples. -/
theorem claim_C9_injective (y1 m1 d1 a1 y2 m2 d2 a2 : Nat)
    (hy1 : y1 ≤ 16383) (hm11 : 1 ≤ m1) (hm12 : m1 ≤ 12) (hd11 : 1 ≤ d1)
    (hd12 : d1 ≤ 31) (ha1 : a1 ≤ 33554431)
    (hy2 : y2 ≤ 16383) (hm21 : 1 ≤ m2) (hm22 : m2 ≤ 12) (hd21 : 1 ≤ d2)
    (hd22 : d2 ≤ 31) (ha2 : a2 ≤ 33554431) :
    (packDateAmount y1 m1 d1 a1 = packDateAmount y2 m2 d2 a2 →
      (y1, m1, d1, a1) = (y2, m2, d2, a2)) ∧
    (encodeV1 y1 m1 d1 a1 = encodeV1 y2 m2 d2 a2 →
      (y1, m1, d1, a1) = (y2, m2, d2, a2)) := by
  constructor
  · intro h
    rw [packDateAmount_ok y1 m1 d1 a1 hy1 hm11 hm12 hd11 hd12 ha1,
      packDateAmount_ok y2 m2 d2 a2 hy2 hm21 hm22 hd21 hd22 ha2,
      bytesBE6_eq, bytesBE6_eq] at h
    simp only [Except.ok.injEq, List.cons.injEq, and_true] at h
    simp only [Prod.mk.injEq]
    refine ⟨by omega, by omega, by omega, by omega⟩
  · intro h
    have hh : (encodeV1 y1 m1 d1 a1).bind decodeV1 =
        (encodeV1 y2 m2 d2 a2).bind decodeV1 := by
      rw [h]
    rw [decodeV1_encodeV1 y1 m1 d1 a1 hy1 hm11 hm12 hd11 hd12 ha1,
      decodeV1_encodeV1 y2 m2 d2 a2 hy2 hm21 hm22 hd21 hd22 ha2] at hh
    simpa using hh

/-- Witness for C9: colliding inputs are equal inputs. -/
theorem claim_C9_injective_witness :
    packDateAmount 2024 1 15 1050 = packDateAmount 2024 1 15 1050 ∧
    ((2024, 1, 15, 1050) : Nat × Nat × Nat × Nat) = (2024, 1, 15, 1050) :=
  ⟨rfl,
   (claim_C9_injective 2024 1 15 1050 2024 1 15 1050 (by norm_num) (by norm_num)
     (by norm_num) (by norm_num) (by norm_num) (by norm_num) (by norm_num)
     (by norm_num) (by norm_num) (by norm_num) (by norm_num) (by norm_num)).1 rfl⟩

/-! ## Malformed-input rejection -/

/-- Looking up a character that is not in the list finds no index. -/
theorem b64ValAux_eq_none (l : List Char) (i : Nat) (c : Char) (h : c ∉ l) :
    b64ValAux l i c = none := by
  induction l generalizing i with
  | nil => rfl
  | cons a t ih =>
      rw [b64ValAux, if_neg (fun hac => h (by rw [← hac]; exact List.mem_cons_self a t))]
      exact ih _ (fun hc => h (List.mem_cons_of_mem _ hc))

/-- Characters outside the standard alphabet have no 6-bit value. -/
theorem b64Val_eq_none (c : Char) (h : c ∉ b64Alphabet) : b64Val c = none :=
  b64ValAux_eq_none _ _ _ h

/-- ASCII whitespace is JS whitespace. -/
theorem isJsWs_of_isAsciiWs (c : Char) (h : isAsciiWs c = true) : isJsWs c = true := by
  simp [isJsWs, h]

/-- An element failing the predicate survives `dropWhile`. -/
theorem mem_dropWhile_of_not {α : Type} (p : α → Bool) (l : List α) (c : α)
    (hc : p c = false) (hm : c ∈ l) : c ∈ l.dropWhile p := by
  induction l with
  | nil => cases hm
  | cons a t ih =>
      rw [List.dropWhile_cons]
      by_cases ha : p a = true
      · rw [if_pos ha]
        rcases List.mem_cons.mp hm with h | h
        · subst h
          rw [hc] at ha
          cases ha
        · exact ih h
      · rw [if_neg ha]
        exact hm

/-- A non-padding member of a list headed by `=` sits in the tail. -/
theorem mem_tail_of_head_pad (r : List Char) (c : Char) (hc : ¬ (c = '='))
    (hm : c ∈ r) (h : r.head? = some '=') : c ∈ r.tail := by
  cases r with
  | nil => cases hm
  | cons a t =>
      rcases List.mem_cons.mp hm with h1 | h1
      · subst h1
        simp only [List.head?_cons, Option.some.injEq] at h
        exact absurd h hc
      · exact h1

/-- Non-padding members survive the trailing-padding strip. -/
theorem mem_stripEq2 (l : List Char) (c : Char) (hc : ¬ (c = '=')) (hm : c ∈ l) :
    c ∈ stripEq2 l := by
  have hm' : c ∈ l.reverse := List.mem_reverse.mpr hm
  unfold stripEq2
  simp only [List.mem_reverse]
  split_ifs with h1 h2
  · exact mem_tail_of_head_pad _ _ hc (mem_tail_of_head_pad _ _ hc hm' h1) h2
  · exact mem_tail_of_head_pad _ _ hc hm' h1
  · exact hm'

/-- Non-whitespace non-padding characters survive steps 1 and 2 of
forgiving-base64. -/
theorem mem_atobData (cs : List Char) (c : Char) (hws : isAsciiWs c = false)
    (hpad : ¬ (c = '=')) (hm : c ∈ cs) : c ∈ atobData cs := by
  have h1 : c ∈ cs.filter fun x => !isAsciiWs x :=
    List.mem_filter.mpr ⟨hm, by rw [hws]; rfl⟩
  unfold atobData
  split_ifs with h
  · exact mem_stripEq2 _ _ hpad h1
  · exact h1

/-- `atob` fails whenever an out-of-alphabet character survives into its
step 4. -/
theorem atob_none_of_mem_bad (cs : List Char) (c : Char) (hm : c ∈ atobData cs)
    (hv : b64Val c = none) : atob cs = none := by
  unfold atob
  by_cases h1 : (atobData cs).length % 4 = 1
  · rw [if_pos h1]
  · rw [if_neg h1, if_pos (List.any_eq_true.mpr ⟨c, hm, by rw [hv]; rfl⟩)]

/-- When three `=` are appended, at least one survives the strip of
step 2. -/
theorem pad_mem_atobData3 (x : List Char) : '=' ∈ atobData (x ++ ['=', '=', '=']) := by
  have hf : (x ++ ['=', '=', '=']).filter (fun c => !isAsciiWs c) =
      (x.filter fun c => !isAsciiWs c) ++ ['=', '=', '='] := by
    simp [isAsciiWs_pad]
  have hstrip : stripEq2 ((x.filter fun c => !isAsciiWs c) ++ ['=', '=', '=']) =
      (x.filter fun c => !isAsciiWs c) ++ ['='] := by
    simp [stripEq2, List.reverse_append]
  unfold atobData
  rw [hf]
  split_ifs with h
  · rw [hstrip]
    simp
  · simp

/-- A trimmed length congruent 1 mod 4 forces three appended pads, which
`atob` can never fully strip: decoding fails. -/
theorem b64UrlDecodeL_mod1 (cs : List Char) (h : (jsTrim cs).length % 4 = 1) :
    b64UrlDecodeL cs = none := by
  have hpad : padEq ((jsTrim cs).map subDec) =
      ((jsTrim cs).map subDec) ++ ['=', '=', '='] := by
    simp [padEq, List.length_map, h, List.replicate]
  rw [b64UrlDecodeL, hpad]
  exact atob_none_of_mem_bad _ '=' (pad_mem_atobData3 _) b64Val_pad

/-- A character outside both base64 alphabets that is not padding and
not whitespace survives the whole pipeline and makes `atob` fail. -/
theorem b64UrlDecodeL_bad_char (cs : List Char) (c : Char) (hm : c ∈ cs)
    (halpha : c ∉ b64Alphabet) (hdash : ¬ (c = '-')) (hus : ¬ (c = '_'))
    (hpad : ¬ (c = '=')) (hws : isJsWs c = false) : b64UrlDecodeL cs = none := by
  have haws : isAsciiWs c = false := by
    by_contra hb
    rw [isJsWs_of_isAsciiWs c (by revert hb; cases isAsciiWs c <;> simp)] at hws
    cases hws
  have hsub : subDec c = c := by
    rw [subDec, if_neg hdash, if_neg hus]
  have h1 : c ∈ jsTrim cs := by
    unfold jsTrim
    exact List.mem_reverse.mpr (mem_dropWhile_of_not _ _ _ hws
      (List.mem_reverse.mpr (mem_dropWhile_of_not _ _ _ hws hm)))
  have h2 : c ∈ (jsTrim cs).map subDec := by
    rw [← hsub]
    exact List.mem_map_of_mem _ h1
  have h3 : c ∈ padEq ((jsTrim cs).map subDec) := by
    unfold padEq
    exact List.mem_append_left _ h2
  exact atob_none_of_mem_bad _ c (mem_atobData _ _ haws hpad h3) (b64Val_eq_none c halpha)

/-- Each decoded group of four characters yields three bytes and a final
partial group strictly fewer: at most three bytes per four characters. -/
theorem decodeQuads_length (l : List Char) (bs : List Nat)
    (h : decodeQuads l = some bs) : 4 * bs.length ≤ 3 * l.length :=
  match l, h with
  | [], h => by
      simp only [decodeQuads, Option.some.injEq] at h
      simp [← h]
  | [c0], h => by
      simp [decodeQuads] at h
  | [c0, c1], h => by
      rw [decodeQuads] at h
      cases h0 : b64Val c0 <;> rw [h0] at h <;> simp only [Option.bind] at h
      · cases h
      · cases h1 : b64Val c1 <;> rw [h1] at h <;> simp only [Option.map] at h
        · cases h
        · cases h
          simp
  | [c0, c1, c2], h => by
      rw [decodeQuads] at h
      cases h0 : b64Val c0 <;> rw [h0] at h <;> simp only [Option.bind] at h
      · cases h
      · cases h1 : b64Val c1 <;> rw [h1] at h <;> simp only [Option.bind] at h
        · cases h
        · cases h2 : b64Val c2 <;> rw [h2] at h <;> simp only [Option.map] at h
          · cases h
          · cases h
            simp
  | c0 :: c1 :: c2 :: c3 :: rest, h => by
      rw [decodeQuads] at h
      cases h0 : b64Val c0 <;> rw [h0] at h <;> simp only [Option.bind] at h
      · cases h
      · cases h1 : b64Val c1 <;> rw [h1] at h <;> simp only [Option.bind] at h
        · cases h
        · cases h2 : b64Val c2 <;> rw [h2] at h <;> simp only [Option.bind] at h
          · cases h
          · cases h3 : b64Val c3 <;> rw [h3] at h <;> simp only [Option.bind] at h
            · cases h
            · cases hr : decodeQuads rest <;> rw [hr] at h <;>
                simp only [Option.map] at h
              · cases h
              · cases h
                have ih := decodeQuads_length rest _ hr
                simp only [List.length_cons]
                omega

/-- Dropping a head never increases a count. -/
theorem countP_tail_le {α : Type} (p : α → Bool) (l : List α) :
    l.tail.countP p ≤ l.countP p := by
  cases l with
  | nil => exact Nat.le_refl _
  | cons a t =>
      rw [List.tail_cons, List.countP_cons]
      exact Nat.le_add_right _ _

/-- The trailing-padding strip never increases a count. -/
theorem countP_stripEq2_le (p : Char → Bool) (l : List Char) :
    (stripEq2 l).countP p ≤ l.countP p := by
  unfold stripEq2
  split_ifs with h1 h2 <;> rw [List.countP_reverse]
  · calc l.reverse.tail.tail.countP p ≤ l.reverse.tail.countP p := countP_tail_le _ _
      _ ≤ l.reverse.countP p := countP_tail_le _ _
      _ = l.countP p := List.countP_reverse p _
  · calc l.reverse.tail.countP p ≤ l.reverse.countP p := countP_tail_le _ _
      _ = l.countP p := List.countP_reverse p _
  · exact le_of_eq (List.countP_reverse p _)

/-- A successful `atob` run consumes only non-whitespace non-padding
characters: four characters of that kind per three output bytes. -/
theorem atob_countP_bound (cs : List Char) (bs : List Nat) (h : atob cs = some bs) :
    4 * bs.length ≤ 3 * (cs.countP fun a => !(a == '=') && !isAsciiWs a) := by
  unfold atob at h
  split_ifs at h with h1 h2
  have hq := decodeQuads_length _ _ h
  have hall : ∀ x ∈ atobData cs, (b64Val x).isNone = false := by
    intro x hx
    by_contra hb
    exact h2 (List.any_eq_true.mpr
      ⟨x, hx, by revert hb; cases (b64Val x).isNone <;> simp⟩)
  have hne : ∀ x ∈ atobData cs, (!(x == '=')) = true := by
    intro x hx
    have h3 := hall x hx
    cases hxe : (x == '=') with
    | false => simp
    | true =>
        have hx' : x = '=' := eq_of_beq hxe
        subst hx'
        rw [b64Val_pad] at h3
        cases h3
  have hlen : (atobData cs).length = (atobData cs).countP fun x => !(x == '=') :=
    (List.countP_eq_length.mpr hne).symm
  have hd : ((atobData cs).countP fun x => !(x == '=')) ≤
      cs.countP fun a => !(a == '=') && !isAsciiWs a := by
    unfold atobData
    split_ifs with hsp
    · calc (stripEq2 (cs.filter fun c => !isAsciiWs c)).countP (fun x => !(x == '=')) ≤
          (cs.filter fun c => !isAsciiWs c).countP fun x => !(x == '=') :=
            countP_stripEq2_le _ _
        _ = cs.countP fun a => !(a == '=') && !isAsciiWs a := List.countP_filter _ _ _
    · exact le_of_eq (List.countP_filter _ _ _)
  omega

/-- Trimming never lengthens a string. -/
theorem jsTrim_length_le (cs : List Char) : (jsTrim cs).length ≤ cs.length := by
  unfold jsTrim
  calc ((cs.dropWhile isJsWs).reverse.dropWhile isJsWs).reverse.length
      = ((cs.dropWhile isJsWs).reverse.dropWhile isJsWs).length :=
        List.length_reverse _
    _ ≤ (cs.dropWhile isJsWs).reverse.length := (List.dropWhile_sublist _).length_le
    _ = (cs.dropWhile isJsWs).length := List.length_reverse _
    _ ≤ cs.length := (List.dropWhile_sublist _).length_le

/-- Whatever base64url decoding accepts satisfies the byte budget: four
input characters per three output bytes, pads and whitespace not
counting. -/
theorem b64UrlDecodeL_length_bound (cs : List Char) (bs : List Nat)
    (h : b64UrlDecodeL cs = some bs) : 4 * bs.length ≤ 3 * cs.length := by
  unfold b64UrlDecodeL at h
  have hb := atob_countP_bound _ _ h
  have h1 : ((padEq ((jsTrim cs).map subDec)).countP fun a => !(a == '=') && !isAsciiWs a) =
      ((jsTrim cs).map subDec).countP fun a => !(a == '=') && !isAsciiWs a := by
    rw [padEq, List.countP_append]
    have h0 : ((List.replicate ((4 - ((jsTrim cs).map subDec).length % 4) % 4)
        '=').countP fun a => !(a == '=') && !isAsciiWs a) = 0 := by
      apply List.countP_eq_zero.mpr
      intro a ha
      rw [(List.mem_replicate.mp ha).2]
      decide
    omega
  have h2 : (((jsTrim cs).map subDec).countP fun a => !(a == '=') && !isAsciiWs a) ≤
      cs.length := by
    calc (((jsTrim cs).map subDec).countP fun a => !(a == '=') && !isAsciiWs a) ≤
        ((jsTrim cs).map subDec).length := List.countP_le_length _
      _ = (jsTrim cs).length := List.length_map _ _
      _ ≤ cs.length := jsTrim_length_le _
  omega

/-- A 7-character V1 token always fails: at most five bytes can come out
of seven characters, never the six the decoder demands. -/
theorem decodeV1_7char (s : String) (h : s.length = 7) :
    decodeV1 s = .error "MalformedToken" := by
  rw [decodeV1]
  cases hdec : b64UrlDecode s with
  | none => rfl
  | some bs =>
      have hb := b64UrlDecodeL_length_bound s.data bs hdec
      have hlen : s.data.length = 7 := h
      rcases bs with _ | ⟨b0, _ | ⟨b1, _ | ⟨b2, _ | ⟨b3, _ | ⟨b4, _ | ⟨b5, _ | ⟨b6, r⟩⟩⟩⟩⟩⟩⟩ <;>
        first
          | rfl
          | (exfalso; simp only [List.length_cons, List.length_nil] at hb; omega)

/-- C6 counterexample: the string `"AAAAAA+/"` contains `+`, a character
outside the base64url alphabet, yet `b64UrlDecode` succeeds — the
substitutions only map `-` and `_` forward, leaving raw `+` and `/` for
`atob` to accept. -/
theorem claim_C6_malformed_counterexample :
    b64UrlDecode "AAAAAA+/" = some [0, 0, 0, 0, 15, 191] ∧
    '+' ∈ "AAAAAA+/".data ∧ '+' ∉ b64UrlAlphabet :=
  ⟨rfl, by decide, by decide⟩

/-- C6 (amended): base64url decoding fails for every string whose
trimmed length is congruent 1 mod 4, and for every string containing a
character outside the base64url alphabet other than `+`, `/`, `=` and
whitespace (those four kinds are tolerated); decoding any 7-character
string as a V1 token fails with `MalformedToken`. -/
theorem claim_C6_malformed (s : String) (c : Char) :
    ((jsTrim s.data).length % 4 = 1 → b64UrlDecode s = none) ∧
    (c ∈ s.data → c ∉ b64Alphabet → c ≠ '-' → c ≠ '_' → c ≠ '=' →
      isJsWs c = false → b64UrlDecode s = none) ∧
    (s.length = 7 → decodeV1 s = .error "MalformedToken") :=
  ⟨fun h => b64UrlDecodeL_mod1 _ h,
   fun hm ha hd hu hp hw => b64UrlDecodeL_bad_char _ _ hm ha hd hu hp hw,
   fun h => decodeV1_7char s h⟩

/-- Witness for C6 on `"AAAAA"` (length 1 mod 4), `"AAAA!AAA"` (the
character `!`) and the 7-character `"AAAAAAA"`. -/
theorem claim_C6_malformed_witness :
    (jsTrim "AAAAA".data).length % 4 = 1 ∧ b64UrlDecode "AAAAA" = none ∧
    b64UrlDecode "AAAA!AAA" = none ∧
    decodeV1 "AAAAAAA" = .error "MalformedToken" :=
  ⟨by decide,
   (claim_C6_malformed "AAAAA" 'A').1 (by decide),
   (claim_C6_malformed "AAAA!AAA" '!').2.1 (by decide) (by decide) (by decide)
     (by decide) (by decide) (by decide),
   (claim_C6_malformed "AAAAAAA" 'A').2.2 (by decide)⟩

/-! ## Whitespace around tokens -/

/-- Surrounding whitespace does not change what `jsTrim` leaves. -/
theorem jsTrim_ws_append (w1 s w2 : List Char) (h1 : ∀ c ∈ w1, isJsWs c = true)
    (h2 : ∀ c ∈ w2, isJsWs c = true) :
    jsTrim (w1 ++ s ++ w2) = jsTrim s := by
  unfold jsTrim
  rw [List.append_assoc, List.dropWhile_append_of_pos h1, List.dropWhile_append]
  by_cases hs : (s.dropWhile isJsWs).isEmpty
  · rw [if_pos hs, List.dropWhile_eq_nil_iff.mpr h2, List.isEmpty_iff.mp hs]
  · rw [if_neg hs, List.reverse_append,
      List.dropWhile_append_of_pos fun c hc => h2 c (List.mem_reverse.mp hc)]

/-- C10: decoding is invariant under leading and trailing whitespace —
the `trim` at the head of `b64UrlDecode` runs before anything else, so
a string surrounded by whitespace decodes exactly like the string
itself (same bytes or same failure). -/
theorem claim_C10_trim (s w1 w2 : String)
    (h1 : ∀ c ∈ w1.data, isJsWs c = true) (h2 : ∀ c ∈ w2.data, isJsWs c = true) :
    b64UrlDecode (w1 ++ s ++ w2) = b64UrlDecode s := by
  show b64UrlDecodeL (w1 ++ s ++ w2).data = b64UrlDecodeL s.data
  rw [String.data_append, String.data_append, b64UrlDecodeL, b64UrlDecodeL,
    jsTrim_ws_append _ _ _ h1 h2]

/-- Witness for C10: a valid token surrounded by a space and a
newline-space decodes like the bare token. -/
theorem claim_C10_trim_witness :
    (∀ c ∈ " ".data, isJsWs c = true) ∧
    b64UrlDecode (" " ++ "H6BeAAQa" ++ "\n ") = b64UrlDecode "H6BeAAQa" :=
  ⟨by decide, claim_C10_trim "H6BeAAQa" " " "\n " (by decide) (by decide)⟩
